import Mathlib

/-!
# SecureUpload/static/script.js : the upload form's submit handler

A shallow embedding of the `async` submit handler registered in
`src/SecureUpload/static/script.js`, as a transition system on a page state.

An `async` function runs synchronously up to its next `await`, and is resumed
by the event loop when the awaited promise settles.  The handler has two
`await`s (line 12, `await fetch(...)`, and line 17, `await res.text()`), so one
invocation is cut in segments:

* lines 6-15 run when the `submit` event is delivered,
* line 17 runs when the `fetch` promise resolves,
* lines 18-24 run when the `res.text()` promise resolves,
* lines 25-28 (the `catch` block) run when either promise rejects.

Each segment is one atomic step of the page (run-to-completion); segments of
different invocations may interleave at the `await`s.
-/

namespace SecureUpload

/-! ## Data model -/

/-- A thrown or rejected JavaScript value, kept as its name and message. -/
structure JsError where
  name : String
  message : String
  deriving DecidableEq, Repr

/-- The `TypeError` raised when a property of `null` is assigned. -/
def nullTypeError : JsError := ⟨"TypeError", "Cannot set properties of null"⟩

/-- The value of one form field: a text value, or a selected file. -/
inductive FieldValue where
  | text (value : String)
  | file (filename : String) (content : List Nat)
  deriving DecidableEq, Repr

/-- The `FormData` object: ordered pairs of field name and value. -/
abbrev FormPayload := List (String × FieldValue)

/-- The element `#response`: the two properties the handler writes,
`textContent` and `style.color`. -/
structure StatusDisplay where
  textContent : String
  color : String
  deriving DecidableEq, Repr

/-- The `Response` object a resolved `fetch` gives; the handler reads `ok`. -/
structure Response where
  status : Nat
  ok : Bool
  deriving DecidableEq, Repr

/-- What one invocation of the handler does, in program order.  The first
group are the statements of the source; `gotResponse`, `gotText` and `caught`
mark the three places where the handler is resumed after an `await`. -/
inductive Action where
  | preventDefault
  | newFormData (payload : FormPayload)
  | setTextContent (s : String)
  | setColor (s : String)
  | fetch (url : String) (method : String) (body : FormPayload)
  | readText
  | gotResponse (res : Response)
  | gotText (text : String)
  | caught (err : JsError)
  deriving DecidableEq, Repr

/-- Where an invocation of the handler stands: suspended at one of the two
`await`s, or settled (the promise the `async` function returned has
fulfilled or rejected). -/
inductive Invocation where
  | awaitFetch
  | awaitText (res : Response)
  | fulfilled
  | rejected (err : JsError)
  deriving DecidableEq, Repr

/-- The page after `DOMContentLoaded`: the element `getElementById("response")`
returned (`none` for `null`), the current values of the form's fields, the
invocations of the handler so far (invocation `i` is `calls[i]`), and the
actions performed so far, oldest first, each with its invocation. -/
structure Page where
  responseDiv : Option StatusDisplay
  formFields : FormPayload
  calls : List Invocation
  trace : List (Nat × Action)
  deriving DecidableEq, Repr

/-- What the environment delivers to the page. -/
inductive Event where
  | submit
  | edit (fields : FormPayload)
  | fetchResolved (i : Nat) (res : Response)
  | fetchRejected (i : Nat) (err : JsError)
  | textResolved (i : Nat) (text : String)
  | textRejected (i : Nat) (err : JsError)
  deriving DecidableEq, Repr

/-! ## The handler -/

/-- Record an action of invocation `i`. -/
def Page.emit (p : Page) (i : Nat) (a : Action) : Page :=
  { p with trace := p.trace ++ [(i, a)] }

/-- The statement `responseDiv.textContent = s`; throws when `responseDiv`
is `null`. -/
def Page.setTextContent (p : Page) (i : Nat) (s : String) : Except JsError Page :=
  match p.responseDiv with
  | none => .error nullTypeError
  | some d => .ok ({ p with responseDiv := some { d with textContent := s } }.emit i (.setTextContent s))

/-- The statement `responseDiv.style.color = s`; throws when `responseDiv`
is `null`. -/
def Page.setColor (p : Page) (i : Nat) (s : String) : Except JsError Page :=
  match p.responseDiv with
  | none => .error nullTypeError
  | some d => .ok ({ p with responseDiv := some { d with color := s } }.emit i (.setColor s))

/-- Invocation `i` moves to `inv`. -/
def Page.setCall (p : Page) (i : Nat) (inv : Invocation) : Page :=
  { p with calls := p.calls.set i inv }

/-- Lines 25-28: the `catch` block.  An exception raised inside it rejects the
handler's promise. -/
def catchBlock (p : Page) (i : Nat) (err : JsError) : Page :=
  let p := p.emit i (.caught err)
  match (p.setTextContent i "Upload failed.").bind (fun p => p.setColor i "red") with
  | .ok p => p.setCall i .fulfilled
  | .error e => p.setCall i (.rejected e)

/-- Lines 6-15: the handler up to its first `await`.  Line 9 is outside the
`try`, so an exception there rejects the handler's promise. -/
def onSubmit (p : Page) : Page :=
  let i := p.calls.length
  let p := p.emit i .preventDefault
  let formData := p.formFields
  let p := p.emit i (.newFormData formData)
  match p.setTextContent i "Uploading..." with
  | .error e => { p with calls := p.calls ++ [.rejected e] }
  | .ok p =>
    let p := p.emit i (.fetch "/upload" "POST" formData)
    { p with calls := p.calls ++ [.awaitFetch] }

/-- Line 17: resumed with the response, the handler calls `res.text()` and
awaits it. -/
def onFetchResolved (p : Page) (i : Nat) (res : Response) : Page :=
  let p := p.emit i (.gotResponse res)
  let p := p.emit i .readText
  p.setCall i (.awaitText res)

/-- Lines 18-24: resumed with the body text; an exception here is inside the
`try` and goes to the `catch` block. -/
def onTextResolved (p : Page) (i : Nat) (res : Response) (text : String) : Page :=
  let p := p.emit i (.gotText text)
  match (p.setTextContent i text).bind
      (fun p => if res.ok then p.setColor i "green" else p.setColor i "red") with
  | .ok p => p.setCall i .fulfilled
  | .error e => catchBlock p i e

/-- One step of the page.  A settlement is enabled only for an invocation
suspended at the matching `await`. -/
def step (p : Page) : Event → Option Page
  | .submit => some (onSubmit p)
  | .edit fields => some { p with formFields := fields }
  | .fetchResolved i res =>
    match p.calls.get? i with
    | some .awaitFetch => some (onFetchResolved p i res)
    | _ => none
  | .fetchRejected i err =>
    match p.calls.get? i with
    | some .awaitFetch => some (catchBlock p i err)
    | _ => none
  | .textResolved i text =>
    match p.calls.get? i with
    | some (.awaitText res) => some (onTextResolved p i res text)
    | _ => none
  | .textRejected i err =>
    match p.calls.get? i with
    | some (.awaitText _) => some (catchBlock p i err)
    | _ => none

/-- Deliver a sequence of events, in order. -/
def runEvents (p : Page) : List Event → Option Page
  | [] => some p
  | e :: es => (step p e).bind (fun q => runEvents q es)

/-! ## One submission from start to settlement -/

/-- What the network does for one submission: each of the two awaited steps,
the `fetch` and the reading of the body, succeeds or fails. -/
inductive NetOutcome where
  | fetchRejects (err : JsError)
  | textRejects (res : Response) (err : JsError)
  | completes (res : Response) (body : String)
  deriving DecidableEq, Repr

/-- The events that settle invocation `i` with outcome `o`. -/
def settleEvents (i : Nat) : NetOutcome → List Event
  | .fetchRejects err => [.fetchRejected i err]
  | .textRejects res err => [.fetchResolved i res, .textRejected i err]
  | .completes res body => [.fetchResolved i res, .textResolved i body]

/-- One submission that runs alone: the submit event, then its settlement. -/
def submitAndSettle (p : Page) (o : NetOutcome) : Option Page :=
  runEvents p (.submit :: settleEvents p.calls.length o)

/-- The display the handler leaves for an outcome. -/
def render : NetOutcome → StatusDisplay
  | .fetchRejects _ => ⟨"Upload failed.", "red"⟩
  | .textRejects _ _ => ⟨"Upload failed.", "red"⟩
  | .completes res body => ⟨body, if res.ok then "green" else "red"⟩

/-- A page just loaded, with a status element and no submission yet. -/
def freshPage : Page :=
  { responseDiv := some ⟨"", ""⟩, formFields := [("file", .file "a.txt" [104, 105])],
    calls := [], trace := [] }

/-- The action writes to the status element. -/
def Action.isWrite : Action → Bool
  | .setTextContent _ => true
  | .setColor _ => true
  | _ => false

/-- The action issues a network request. -/
def Action.isFetch : Action → Bool
  | .fetch _ _ _ => true
  | _ => false

/-- The action is the handler being resumed with the response (line 12
returned) or with the failure (the `catch` block is entered). -/
def Action.observes : Action → Bool
  | .gotResponse _ => true
  | .caught _ => true
  | _ => false

/-- The action is the entry of the `catch` block. -/
def Action.isCaught : Action → Bool
  | .caught _ => true
  | _ => false

/-- The actions of lines 6-15, up to the first `await`. -/
def submitTrace (fields : FormPayload) : List Action :=
  [.preventDefault, .newFormData fields, .setTextContent "Uploading...",
   .fetch "/upload" "POST" fields]

/-- The actions after the first `await`, for each outcome. -/
def settleTrace : NetOutcome → List Action
  | .fetchRejects err => [.caught err, .setTextContent "Upload failed.", .setColor "red"]
  | .textRejects res err =>
    [.gotResponse res, .readText, .caught err, .setTextContent "Upload failed.", .setColor "red"]
  | .completes res body =>
    [.gotResponse res, .readText, .gotText body, .setTextContent body,
     .setColor (if res.ok then "green" else "red")]

/-- The invocation is settled: its promise has fulfilled or rejected. -/
def Invocation.settled : Invocation → Bool
  | .fulfilled => true
  | .rejected _ => true
  | _ => false

/-- No request remains in flight: every invocation is settled. -/
def Page.idle (p : Page) : Bool := p.calls.all Invocation.settled

/-! ## Overlapping submissions: what an event sequence says -/

/-- What a sequence of events says about the submissions: the number the next
submission gets, the submission started last, the responses received, and the
submissions settled with their outcomes (latest first). -/
structure History where
  next : Nat
  started : Option Nat
  responses : List (Nat × Response)
  settled : List (Nat × NetOutcome)
  deriving DecidableEq, Repr

/-- Take one event into the history.  A submission settles when its fetch
rejects, or when the body of its response is read or fails to be read. -/
def History.record (h : History) : Event → History
  | .submit => { h with next := h.next + 1, started := some h.next }
  | .edit _ => h
  | .fetchResolved i res => { h with responses := (i, res) :: h.responses }
  | .fetchRejected i err => { h with settled := (i, .fetchRejects err) :: h.settled }
  | .textResolved i text =>
    match h.responses.lookup i with
    | some res => { h with settled := (i, .completes res text) :: h.settled }
    | none => h
  | .textRejected i err =>
    match h.responses.lookup i with
    | some res => { h with settled := (i, .textRejects res err) :: h.settled }
    | none => h

/-- The history of the events `es`, delivered to a page with `n` earlier
invocations. -/
def history (n : Nat) (es : List Event) : History :=
  es.foldl History.record ⟨n, none, [], []⟩

/-- The submission started last in `es`. -/
def mostRecentlyStarted (n : Nat) (es : List Event) : Option Nat :=
  (history n es).started

/-- The outcome with which submission `i` settled in `es`. -/
def outcomeOf (n : Nat) (es : List Event) (i : Nat) : Option NetOutcome :=
  (history n es).settled.lookup i

/-- The submission that settled last in `es`, with its outcome. -/
def lastSettled (n : Nat) (es : List Event) : Option (Nat × NetOutcome) :=
  (history n es).settled.head?

/-- The page and the history of the events that led to it agree: the status
element exists, the response an invocation reads is the one the history holds
for it, and an idle page shows the outcome that settled last. -/
def Agree (p : Page) (h : History) : Prop :=
  (∃ d, p.responseDiv = some d) ∧
  (∀ i res, p.calls[i]? = some (.awaitText res) → h.responses.lookup i = some res) ∧
  (p.idle = true → ∀ j o, h.settled.head? = some (j, o) → p.responseDiv = some (render o))

/-- Two submissions in sequence: the first fails, the second is started after
that and gets a 200 response. -/
def sequentialEvents : List Event :=
  [.submit, .fetchRejected 0 ⟨"TypeError", "Failed to fetch"⟩, .submit,
   .fetchResolved 1 ⟨200, true⟩, .textResolved 1 "OK"]

/-- Two submissions that overlap: the second is started while the first is in
flight, and the second settles first. -/
def overlappingEvents : List Event :=
  [.submit, .submit, .fetchResolved 1 ⟨200, true⟩, .textResolved 1 "second",
   .fetchResolved 0 ⟨200, true⟩, .textResolved 0 "first"]

end SecureUpload

namespace SecureUpload

/-! ## Lemmas on the segments -/

theorem set_concat_length {α : Type} (l : List α) (a b : α) :
    (l ++ [a]).set l.length b = l ++ [b] := by
  induction l with
  | nil => rfl
  | cons x xs ih => simp [ih]

theorem onSubmit_eq (p : Page) (d : StatusDisplay) (h : p.responseDiv = some d) :
    onSubmit p =
      { responseDiv := some ⟨"Uploading...", d.color⟩, formFields := p.formFields,
        calls := p.calls ++ [.awaitFetch],
        trace := p.trace ++ (submitTrace p.formFields).map (fun a => (p.calls.length, a)) } := by
  obtain ⟨r, f, c, t⟩ := p
  simp only at h
  subst h
  simp [onSubmit, Page.emit, Page.setTextContent, submitTrace]

theorem catchBlock_eq (p : Page) (d : StatusDisplay) (i : Nat) (err : JsError)
    (h : p.responseDiv = some d) :
    catchBlock p i err =
      { responseDiv := some ⟨"Upload failed.", "red"⟩, formFields := p.formFields,
        calls := p.calls.set i .fulfilled,
        trace := p.trace ++ [(i, .caught err), (i, .setTextContent "Upload failed."),
          (i, .setColor "red")] } := by
  obtain ⟨r, f, c, t⟩ := p
  simp only at h
  subst h
  simp [catchBlock, Page.emit, Page.setTextContent, Page.setColor, Page.setCall, Except.bind]

theorem onTextResolved_eq (p : Page) (d : StatusDisplay) (i : Nat) (res : Response)
    (text : String) (h : p.responseDiv = some d) :
    onTextResolved p i res text =
      { responseDiv := some ⟨text, if res.ok then "green" else "red"⟩,
        formFields := p.formFields,
        calls := p.calls.set i .fulfilled,
        trace := p.trace ++ [(i, .gotText text), (i, .setTextContent text),
          (i, .setColor (if res.ok then "green" else "red"))] } := by
  obtain ⟨r, f, c, t⟩ := p
  simp only at h
  subst h
  cases hok : res.ok <;>
  simp [onTextResolved, Page.emit, Page.setTextContent, Page.setColor, Page.setCall,
    Except.bind, hok]

theorem onFetchResolved_eq (p : Page) (i : Nat) (res : Response) :
    onFetchResolved p i res =
      { responseDiv := p.responseDiv, formFields := p.formFields,
        calls := p.calls.set i (.awaitText res),
        trace := p.trace ++ [(i, .gotResponse res), (i, .readText)] } := by
  simp [onFetchResolved, Page.emit, Page.setCall]

/-- The settlement of the invocation started last, when it runs with nothing
in between. -/
theorem settle_eq (q : Page) (d : StatusDisplay) (cs : List Invocation) (o : NetOutcome)
    (h : q.responseDiv = some d) (hc : q.calls = cs ++ [.awaitFetch]) :
    runEvents q (settleEvents cs.length o) =
      some { responseDiv := some (render o), formFields := q.formFields,
             calls := cs ++ [.fulfilled],
             trace := q.trace ++ (settleTrace o).map (fun a => (cs.length, a)) } := by
  cases o with
  | fetchRejects err =>
    simp [settleEvents, runEvents, step, hc, catchBlock_eq q d _ _ h, render, settleTrace,
      set_concat_length]
  | textRejects res err =>
    have h2 : (onFetchResolved q cs.length res).responseDiv = some d := by
      simp [onFetchResolved_eq, h]
    simp [settleEvents, runEvents, step, hc, catchBlock_eq _ d _ _ h2, render, settleTrace]
    simp [onFetchResolved_eq, hc, set_concat_length]
  | completes res body =>
    have h2 : (onFetchResolved q cs.length res).responseDiv = some d := by
      simp [onFetchResolved_eq, h]
    simp [settleEvents, runEvents, step, hc, onTextResolved_eq _ d _ _ _ h2, render, settleTrace]
    simp [onFetchResolved_eq, hc, set_concat_length]

/-- One submission that runs alone, on a page that has the status element. -/
theorem submitAndSettle_eq (p : Page) (d : StatusDisplay) (o : NetOutcome)
    (h : p.responseDiv = some d) :
    submitAndSettle p o =
      some { responseDiv := some (render o), formFields := p.formFields,
             calls := p.calls ++ [.fulfilled],
             trace := p.trace ++ ((submitTrace p.formFields).map (fun a => (p.calls.length, a))
               ++ (settleTrace o).map (fun a => (p.calls.length, a))) } := by
  have hs : (onSubmit p).responseDiv = some ⟨"Uploading...", d.color⟩ := by
    rw [onSubmit_eq p d h]
  have hc : (onSubmit p).calls = p.calls ++ [.awaitFetch] := by
    rw [onSubmit_eq p d h]
  simp only [submitAndSettle, runEvents, step, Option.some_bind]
  rw [settle_eq (onSubmit p) _ p.calls o hs hc]
  simp [onSubmit_eq p d h]

/-- On a page without the status element line 9 throws before the request is
issued: the invocation is rejected at once and no settlement can be delivered
to it.  So a run in which the network has an outcome is a run on a page that
has the element. -/
theorem status_element_of_run (p q : Page) (o : NetOutcome)
    (hr : submitAndSettle p o = some q) : ∃ d, p.responseDiv = some d := by
  obtain ⟨r, f, c, t⟩ := p
  cases r with
  | some d => exact ⟨d, rfl⟩
  | none =>
    exfalso
    cases o <;>
      simp [submitAndSettle, settleEvents, runEvents, step, onSubmit, Page.emit,
        Page.setTextContent] at hr

end SecureUpload

namespace SecureUpload

/-! ## One submission -/

/-- C1: when fetch resolves with a response whose body reads as text `b`, the
handler settles with the status text equal to `b` and the color "green" if
the response's `ok` flag is true and "red" otherwise.  First for a submission
that runs alone from any page that has the status element, then for the step
that settles an invocation awaiting the body, whatever happened in between. -/
theorem response_body_rendered (p : Page) (d : StatusDisplay) (res : Response) (b : String)
    (h : p.responseDiv = some d) :
    (∃ q, submitAndSettle p (.completes res b) = some q ∧
      q.responseDiv = some ⟨b, if res.ok then "green" else "red"⟩) ∧
    (∀ i, p.calls.get? i = some (.awaitText res) →
      ∃ q, step p (.textResolved i b) = some q ∧
        q.responseDiv = some ⟨b, if res.ok then "green" else "red"⟩) := by
  refine ⟨⟨_, submitAndSettle_eq p d _ h, rfl⟩, ?_⟩
  intro i hi
  rw [List.get?_eq_getElem?] at hi
  refine ⟨onTextResolved p i res b, by simp [step, hi], ?_⟩
  rw [onTextResolved_eq p d i res b h]

/-- Witness of C1: status 200 with body "OK" ends green, status 500 with body
"Server error" ends red. -/
theorem response_body_rendered_witness :
    freshPage.responseDiv = some ⟨"", ""⟩ ∧
    (∃ q, submitAndSettle freshPage (.completes ⟨200, true⟩ "OK") = some q ∧
      q.responseDiv = some ⟨"OK", "green"⟩) ∧
    (∃ q, submitAndSettle freshPage (.completes ⟨500, false⟩ "Server error") = some q ∧
      q.responseDiv = some ⟨"Server error", "red"⟩) :=
  ⟨rfl, (response_body_rendered freshPage ⟨"", ""⟩ ⟨200, true⟩ "OK" rfl).1,
    (response_body_rendered freshPage ⟨"", ""⟩ ⟨500, false⟩ "Server error" rfl).1⟩

/-- C2: when the network call rejects, whatever the error and whatever the
status element held, the handler settles with the text "Upload failed." and
the color "red".  First for a submission that runs alone, then for the step
that delivers the rejection to an invocation awaiting the fetch. -/
theorem rejection_renders_failure (p : Page) (d : StatusDisplay) (err : JsError)
    (h : p.responseDiv = some d) :
    (∃ q, submitAndSettle p (.fetchRejects err) = some q ∧
      q.responseDiv = some ⟨"Upload failed.", "red"⟩) ∧
    (∀ i, p.calls.get? i = some .awaitFetch →
      ∃ q, step p (.fetchRejected i err) = some q ∧
        q.responseDiv = some ⟨"Upload failed.", "red"⟩) := by
  refine ⟨⟨_, submitAndSettle_eq p d _ h, rfl⟩, ?_⟩
  intro i hi
  rw [List.get?_eq_getElem?] at hi
  refine ⟨catchBlock p i err, by simp [step, hi], ?_⟩
  rw [catchBlock_eq p d i err h]

/-- Witness of C2: a rejected fetch on a page that showed an earlier success. -/
theorem rejection_renders_failure_witness :
    ∃ q, submitAndSettle { freshPage with responseDiv := some ⟨"OK", "green"⟩ }
        (.fetchRejects ⟨"TypeError", "Failed to fetch"⟩) = some q ∧
      q.responseDiv = some ⟨"Upload failed.", "red"⟩ :=
  (rejection_renders_failure { freshPage with responseDiv := some ⟨"OK", "green"⟩ }
    ⟨"OK", "green"⟩ ⟨"TypeError", "Failed to fetch"⟩ rfl).1

/-- C3: for every submit event, on every page, `preventDefault` is the first
action of the invocation: everything the submit step adds to the trace comes
after it, and in a whole run, for every network outcome, it is followed by
the capture of the form's fields, the "Uploading..." write and the request,
in that order. -/
theorem preventDefault_first (p : Page) :
    (∃ q rest, step p .submit = some q ∧
      q.trace = p.trace ++ (p.calls.length, .preventDefault) :: rest) ∧
    (∀ d o, p.responseDiv = some d → ∃ q rest, submitAndSettle p o = some q ∧
      q.trace = p.trace ++ (p.calls.length, .preventDefault) ::
        (p.calls.length, .newFormData p.formFields) ::
        (p.calls.length, .setTextContent "Uploading...") ::
        (p.calls.length, .fetch "/upload" "POST" p.formFields) :: rest) := by
  constructor
  · obtain ⟨r, f, c, t⟩ := p
    cases r with
    | none =>
      exact ⟨_, [(c.length, .newFormData f)], rfl,
        by simp [onSubmit, Page.emit, Page.setTextContent]⟩
    | some d =>
      exact ⟨_, _, congrArg some (onSubmit_eq _ d rfl), rfl⟩
  · intro d o h
    exact ⟨_, _, submitAndSettle_eq p d o h, rfl⟩

/-- Witness of C3: a run whose fetch rejects. -/
theorem preventDefault_first_witness :
    ∃ q rest, submitAndSettle freshPage (.fetchRejects ⟨"TypeError", "Failed to fetch"⟩) = some q ∧
      q.trace = freshPage.trace ++ (freshPage.calls.length, .preventDefault) ::
        (freshPage.calls.length, .newFormData freshPage.formFields) ::
        (freshPage.calls.length, .setTextContent "Uploading...") ::
        (freshPage.calls.length, .fetch "/upload" "POST" freshPage.formFields) :: rest :=
  (preventDefault_first freshPage).2 ⟨"", ""⟩ (.fetchRejects ⟨"TypeError", "Failed to fetch"⟩) rfl

end SecureUpload

namespace SecureUpload

/-- C4: within one invocation the write of "Uploading..." comes right before
the request is issued, and the page the submit step leaves (the step ends with
the request being issued) shows exactly "Uploading..."; in the whole run, the
first action after the request is the handler being resumed with the response
or with the failure, so every later write to the status element comes after
that observation. -/
theorem uploading_before_request (p : Page) (d : StatusDisplay) (o : NetOutcome)
    (h : p.responseDiv = some d) :
    (∃ q, step p .submit = some q ∧
      q.responseDiv.map (fun x => x.textContent) = some "Uploading..." ∧
      q.trace = p.trace ++
        [(p.calls.length, .preventDefault), (p.calls.length, .newFormData p.formFields),
         (p.calls.length, .setTextContent "Uploading..."),
         (p.calls.length, .fetch "/upload" "POST" p.formFields)]) ∧
    (∃ q obs rest, submitAndSettle p o = some q ∧
      q.trace = p.trace ++
        [(p.calls.length, .preventDefault), (p.calls.length, .newFormData p.formFields),
         (p.calls.length, .setTextContent "Uploading..."),
         (p.calls.length, .fetch "/upload" "POST" p.formFields)] ++ (p.calls.length, obs) :: rest ∧
      obs.observes = true) := by
  constructor
  · exact ⟨_, congrArg some (onSubmit_eq p d h), rfl, rfl⟩
  · cases o with
    | fetchRejects err =>
      exact ⟨_, .caught err,
        [(p.calls.length, .setTextContent "Upload failed."), (p.calls.length, .setColor "red")],
        submitAndSettle_eq p d _ h, by simp [submitTrace, settleTrace], rfl⟩
    | textRejects res err =>
      exact ⟨_, .gotResponse res,
        [(p.calls.length, .readText), (p.calls.length, .caught err),
         (p.calls.length, .setTextContent "Upload failed."), (p.calls.length, .setColor "red")],
        submitAndSettle_eq p d _ h, by simp [submitTrace, settleTrace], rfl⟩
    | completes res b =>
      exact ⟨_, .gotResponse res,
        [(p.calls.length, .readText), (p.calls.length, .gotText b),
         (p.calls.length, .setTextContent b),
         (p.calls.length, .setColor (if res.ok then "green" else "red"))],
        submitAndSettle_eq p d _ h, by simp [submitTrace, settleTrace], rfl⟩

/-- Witness of C4: a run that ends with a 200 response. -/
theorem uploading_before_request_witness :
    (∃ q, step freshPage .submit = some q ∧
      q.responseDiv.map (fun x => x.textContent) = some "Uploading..." ∧
      q.trace = freshPage.trace ++
        [(freshPage.calls.length, .preventDefault),
         (freshPage.calls.length, .newFormData freshPage.formFields),
         (freshPage.calls.length, .setTextContent "Uploading..."),
         (freshPage.calls.length, .fetch "/upload" "POST" freshPage.formFields)]) ∧
    (∃ q obs rest, submitAndSettle freshPage (.completes ⟨200, true⟩ "OK") = some q ∧
      q.trace = freshPage.trace ++
        [(freshPage.calls.length, .preventDefault),
         (freshPage.calls.length, .newFormData freshPage.formFields),
         (freshPage.calls.length, .setTextContent "Uploading..."),
         (freshPage.calls.length, .fetch "/upload" "POST" freshPage.formFields)] ++
        (freshPage.calls.length, obs) :: rest ∧
      obs.observes = true) :=
  uploading_before_request freshPage ⟨"", ""⟩ (.completes ⟨200, true⟩ "OK") rfl

/-- C5: for two sequential submissions, the status element after the second
settles is the one the second outcome alone determines: whatever the initial
page and the first outcome, the final text and color are `render o₂`. -/
theorem sequential_overwrite (p p' : Page) (d d' : StatusDisplay) (o₁ o₁' o₂ : NetOutcome)
    (h : p.responseDiv = some d) (h' : p'.responseDiv = some d') :
    ∃ q q', (submitAndSettle p o₁).bind (fun r => submitAndSettle r o₂) = some q ∧
      (submitAndSettle p' o₁').bind (fun r => submitAndSettle r o₂) = some q' ∧
      q.responseDiv = q'.responseDiv ∧ q.responseDiv = some (render o₂) := by
  rw [submitAndSettle_eq p d o₁ h, submitAndSettle_eq p' d' o₁' h']
  simp only [Option.some_bind]
  exact ⟨_, _, submitAndSettle_eq _ (render o₁) o₂ rfl, submitAndSettle_eq _ (render o₁') o₂ rfl,
    rfl, rfl⟩

/-- Witness of C5: a failed attempt then a success, against a success then the
same success; both end with the body of the second and green. -/
theorem sequential_overwrite_witness :
    ∃ q q',
      (submitAndSettle freshPage (.fetchRejects ⟨"TypeError", "Failed to fetch"⟩)).bind
        (fun r => submitAndSettle r (.completes ⟨200, true⟩ "OK")) = some q ∧
      (submitAndSettle { freshPage with responseDiv := some ⟨"old", "red"⟩ }
        (.completes ⟨201, true⟩ "first")).bind
        (fun r => submitAndSettle r (.completes ⟨200, true⟩ "OK")) = some q' ∧
      q.responseDiv = q'.responseDiv ∧ q.responseDiv = some ⟨"OK", "green"⟩ :=
  sequential_overwrite freshPage { freshPage with responseDiv := some ⟨"old", "red"⟩ }
    ⟨"", ""⟩ ⟨"old", "red"⟩ (.fetchRejects ⟨"TypeError", "Failed to fetch"⟩)
    (.completes ⟨201, true⟩ "first") (.completes ⟨200, true⟩ "OK") rfl rfl

/-- C6: for every network outcome one invocation issues exactly one request:
the trace it adds starts with `preventDefault`, the capture of the form's
fields, the "Uploading..." write and `fetch("/upload", POST, fields)` with the
fields as they were when the submit event was delivered, and nothing after
that is a request; editing the form after the submission changes nothing of
it. -/
theorem one_post_request (p : Page) (d : StatusDisplay) (o : NetOutcome)
    (h : p.responseDiv = some d) :
    ∃ q rest, submitAndSettle p o = some q ∧
      q.trace = p.trace ++
        [(p.calls.length, .preventDefault), (p.calls.length, .newFormData p.formFields),
         (p.calls.length, .setTextContent "Uploading..."),
         (p.calls.length, .fetch "/upload" "POST" p.formFields)] ++ rest ∧
      (∀ x ∈ rest, x.2.isFetch = false) ∧
      ∀ fields, ∃ q', runEvents p (.submit :: .edit fields :: settleEvents p.calls.length o)
          = some q' ∧ q'.trace = q.trace := by
  refine ⟨_, (settleTrace o).map (fun a => (p.calls.length, a)), submitAndSettle_eq p d o h,
    by simp [submitTrace], ?_, ?_⟩
  · cases o <;> simp [settleTrace, Action.isFetch]
  · intro fields
    have hs : ({ onSubmit p with formFields := fields } : Page).responseDiv
        = some ⟨"Uploading...", d.color⟩ := by
      rw [onSubmit_eq p d h]
    have hc : ({ onSubmit p with formFields := fields } : Page).calls
        = p.calls ++ [.awaitFetch] := by
      rw [onSubmit_eq p d h]
    simp only [runEvents, step, Option.some_bind]
    rw [settle_eq _ _ p.calls o hs hc]
    refine ⟨_, rfl, ?_⟩
    simp [onSubmit_eq p d h]

/-- Witness of C6: a run that ends with a 500 response. -/
theorem one_post_request_witness :
    ∃ q rest, submitAndSettle freshPage (.completes ⟨500, false⟩ "Server error") = some q ∧
      q.trace = freshPage.trace ++
        [(freshPage.calls.length, .preventDefault),
         (freshPage.calls.length, .newFormData freshPage.formFields),
         (freshPage.calls.length, .setTextContent "Uploading..."),
         (freshPage.calls.length, .fetch "/upload" "POST" freshPage.formFields)] ++ rest ∧
      (∀ x ∈ rest, x.2.isFetch = false) ∧
      ∀ fields, ∃ q', runEvents freshPage
          (.submit :: .edit fields ::
            settleEvents freshPage.calls.length (.completes ⟨500, false⟩ "Server error"))
          = some q' ∧ q'.trace = q.trace :=
  one_post_request freshPage ⟨"", ""⟩ (.completes ⟨500, false⟩ "Server error") rfl

end SecureUpload

namespace SecureUpload

/-- C7: on a page that has the status element, for every outcome of the fetch
and of the body read, the run of the handler ends and its promise is
fulfilled, not rejected; when either awaited step failed the status element
shows the fixed message in red. -/
theorem handler_never_rejects (p : Page) (d : StatusDisplay) (o : NetOutcome)
    (h : p.responseDiv = some d) :
    ∃ q, submitAndSettle p o = some q ∧
      q.calls.get? p.calls.length = some .fulfilled ∧
      ((∀ res b, o ≠ .completes res b) →
        q.responseDiv = some ⟨"Upload failed.", "red"⟩) := by
  refine ⟨_, submitAndSettle_eq p d o h, by simp, ?_⟩
  intro ho
  cases o with
  | fetchRejects err => rfl
  | textRejects res err => rfl
  | completes res b => exact absurd rfl (ho res b)

/-- Witness of C7: the body read fails after a 200 response. -/
theorem handler_never_rejects_witness :
    ∃ q, submitAndSettle freshPage (.textRejects ⟨200, true⟩ ⟨"TypeError", "network error"⟩)
        = some q ∧
      q.calls.get? freshPage.calls.length = some .fulfilled ∧
      ((∀ res b, NetOutcome.textRejects ⟨200, true⟩ ⟨"TypeError", "network error"⟩
          ≠ .completes res b) →
        q.responseDiv = some ⟨"Upload failed.", "red"⟩) :=
  handler_never_rejects freshPage ⟨"", ""⟩
    (.textRejects ⟨200, true⟩ ⟨"TypeError", "network error"⟩) rfl

/-- C8 as stated fails: with a fetch that resolves (status 200) and a body
read that rejects, the `catch` block runs and the text ends as
"Upload failed.", although the fetch itself did not reject. -/
theorem failure_iff_fetch_rejected_fails :
    ¬ ∀ (o : NetOutcome) (q : Page), submitAndSettle freshPage o = some q →
      ((∃ err, (0, Action.caught err) ∈ q.trace) ↔ ∃ err, o = .fetchRejects err) := by
  intro hcl
  have hrun : submitAndSettle freshPage
      (.textRejects ⟨200, true⟩ ⟨"TypeError", "network error"⟩) = some
        { responseDiv := some ⟨"Upload failed.", "red"⟩,
          formFields := freshPage.formFields,
          calls := [.fulfilled],
          trace := [(0, .preventDefault), (0, .newFormData freshPage.formFields),
            (0, .setTextContent "Uploading..."),
            (0, .fetch "/upload" "POST" freshPage.formFields),
            (0, .gotResponse ⟨200, true⟩), (0, .readText),
            (0, .caught ⟨"TypeError", "network error"⟩),
            (0, .setTextContent "Upload failed."), (0, .setColor "red")] } := by
    decide
  obtain ⟨err, he⟩ := (hcl _ _ hrun).1 ⟨⟨"TypeError", "network error"⟩, by simp⟩
  cases he

/-- C8, amended: when the fetch resolves and the body read succeeds the final
text is the response body and the `catch` block does not run; the `catch`
block runs, and leaves "Upload failed." in red, if and only if the fetch
rejected or the body read rejected. -/
theorem failure_iff_either_await_rejects (p : Page) (d : StatusDisplay) (o : NetOutcome)
    (h : p.responseDiv = some d) :
    ∃ q added, submitAndSettle p o = some q ∧ q.trace = p.trace ++ added ∧
      (∀ res b, o = .completes res b →
        q.responseDiv.map (fun x => x.textContent) = some b) ∧
      ((∃ err, (p.calls.length, Action.caught err) ∈ added) ↔
        (∃ err, o = .fetchRejects err) ∨ ∃ res err, o = .textRejects res err) ∧
      ((∃ err, (p.calls.length, Action.caught err) ∈ added) →
        q.responseDiv = some ⟨"Upload failed.", "red"⟩) := by
  refine ⟨_, _, submitAndSettle_eq p d o h, rfl, ?_, ?_, ?_⟩
  · rintro res b rfl
    rfl
  · cases o <;> simp [submitTrace, settleTrace]
  · cases o <;> simp [submitTrace, settleTrace, render]

/-- Witness of C8, amended: a 404 response whose body is read. -/
theorem failure_iff_either_await_rejects_witness :
    ∃ q added, submitAndSettle freshPage (.completes ⟨404, false⟩ "Not found") = some q ∧
      q.trace = freshPage.trace ++ added ∧
      (∀ res b, NetOutcome.completes ⟨404, false⟩ "Not found" = .completes res b →
        q.responseDiv.map (fun x => x.textContent) = some b) ∧
      ((∃ err, (freshPage.calls.length, Action.caught err) ∈ added) ↔
        (∃ err, NetOutcome.completes ⟨404, false⟩ "Not found" = .fetchRejects err) ∨
          ∃ res err, NetOutcome.completes ⟨404, false⟩ "Not found" = .textRejects res err) ∧
      ((∃ err, (freshPage.calls.length, Action.caught err) ∈ added) →
        q.responseDiv = some ⟨"Upload failed.", "red"⟩) :=
  failure_iff_either_await_rejects freshPage ⟨"", ""⟩ (.completes ⟨404, false⟩ "Not found") rfl

/-- C10: the in-progress update changes only the text: for every prior text
`t` and color `c`, the submit step leaves "Uploading..." with color `c`, and
so does the step that delivers the response, up to the settlement. -/
theorem uploading_keeps_color (p : Page) (t c : String) (h : p.responseDiv = some ⟨t, c⟩) :
    ∃ q, step p .submit = some q ∧ q.responseDiv = some ⟨"Uploading...", c⟩ ∧
      ∀ res, ∃ q', step q (.fetchResolved p.calls.length res) = some q' ∧
        q'.responseDiv = some ⟨"Uploading...", c⟩ := by
  refine ⟨_, congrArg some (onSubmit_eq p _ h), rfl, ?_⟩
  intro res
  refine ⟨_, by simp [step]; rfl, ?_⟩
  rw [onFetchResolved_eq]

/-- Witness of C10: "Uploading..." shown in the red a failed attempt left. -/
theorem uploading_keeps_color_witness :
    ∃ q, step { freshPage with responseDiv := some ⟨"Upload failed.", "red"⟩ } .submit = some q ∧
      q.responseDiv = some ⟨"Uploading...", "red"⟩ ∧
      ∀ res, ∃ q', step q (.fetchResolved freshPage.calls.length res) = some q' ∧
        q'.responseDiv = some ⟨"Uploading...", "red"⟩ :=
  uploading_keeps_color { freshPage with responseDiv := some ⟨"Upload failed.", "red"⟩ }
    "Upload failed." "red" rfl

end SecureUpload

namespace SecureUpload

/-! ## Overlapping submissions -/

theorem not_idle_of_pending (cs : List Invocation) (i : Nat) (c : Invocation)
    (hi : cs[i]? = some c) (hc : c.settled = false) : cs.all Invocation.settled = false := by
  rw [List.all_eq_false]
  exact ⟨c, List.getElem?_mem hi, by simp [hc]⟩

theorem agree_step (p q : Page) (h : History) (e : Event) (ha : Agree p h)
    (hs : step p e = some q) : Agree q (h.record e) := by
  obtain ⟨⟨d, hd⟩, hresp, hshow⟩ := ha
  cases e with
  | submit =>
    simp only [step, Option.some.injEq] at hs
    subst hs
    rw [onSubmit_eq p d hd]
    refine ⟨⟨_, rfl⟩, ?_, ?_⟩
    · intro i res hi
      apply hresp i res
      simp only [List.getElem?_append] at hi
      split at hi
      · exact hi
      · rw [List.getElem?_cons] at hi
        split at hi <;> simp at hi
    · intro hidle
      simp [Page.idle, Invocation.settled] at hidle
  | edit fields =>
    simp only [step, Option.some.injEq] at hs
    subst hs
    exact ⟨⟨d, hd⟩, hresp, hshow⟩
  | fetchResolved i res =>
    simp only [step, List.get?_eq_getElem?] at hs
    split at hs
    · rename_i hi
      simp only [Option.some.injEq] at hs
      subst hs
      rw [onFetchResolved_eq]
      refine ⟨⟨d, hd⟩, ?_, ?_⟩
      · intro j r hj
        simp only [List.getElem?_set] at hj
        by_cases hij : i = j
        · subst hij
          have hlt : i < p.calls.length := (List.getElem?_eq_some_iff.1 hi).1
          simp [hlt] at hj
          simp [History.record, List.lookup, hj]
        · simp only [hij, if_false] at hj
          have hji : (j == i) = false := by simpa using fun h' => hij h'.symm
          simp only [History.record, List.lookup, hji]
          exact hresp j r hj
      · intro hidle
        have hlt : i < p.calls.length := (List.getElem?_eq_some_iff.1 hi).1
        have : (p.calls.set i (.awaitText res))[i]? = some (.awaitText res) := by
          simp [List.getElem?_set, hlt]
        have hf := not_idle_of_pending _ i _ this rfl
        simp only [Page.idle] at hidle
        rw [hf] at hidle
        cases hidle
    · cases hs
  | fetchRejected i err =>
    simp only [step, List.get?_eq_getElem?] at hs
    split at hs
    · simp only [Option.some.injEq] at hs
      subst hs
      rw [catchBlock_eq p d i err hd]
      refine ⟨⟨_, rfl⟩, ?_, ?_⟩
      · intro j r hj
        simp only [List.getElem?_set] at hj
        by_cases hij : i = j
        · subst hij
          simp at hj
        · simp only [hij, if_false] at hj
          exact hresp j r hj
      · intro _ j o hjo
        simp only [History.record, List.head?_cons, Option.some.injEq, Prod.mk.injEq] at hjo
        rw [← hjo.2]
        rfl
    · cases hs
  | textResolved i text =>
    simp only [step, List.get?_eq_getElem?] at hs
    split at hs
    · rename_i res hi
      simp only [Option.some.injEq] at hs
      subst hs
      rw [onTextResolved_eq p d i res text hd]
      refine ⟨⟨_, rfl⟩, ?_, ?_⟩
      · intro j r hj
        simp only [List.getElem?_set] at hj
        have hr : (h.record (.textResolved i text)).responses = h.responses := by
          simp only [History.record]
          split <;> rfl
        rw [hr]
        by_cases hij : i = j
        · subst hij
          simp at hj
        · simp only [hij, if_false] at hj
          exact hresp j r hj
      · intro _ j o hjo
        simp only [History.record, hresp i res hi, List.head?_cons, Option.some.injEq,
          Prod.mk.injEq] at hjo
        rw [← hjo.2]
        rfl
    · cases hs
  | textRejected i err =>
    simp only [step, List.get?_eq_getElem?] at hs
    split at hs
    · rename_i res hi
      simp only [Option.some.injEq] at hs
      subst hs
      rw [catchBlock_eq p d i err hd]
      refine ⟨⟨_, rfl⟩, ?_, ?_⟩
      · intro j r hj
        simp only [List.getElem?_set] at hj
        have hr : (h.record (.textRejected i err)).responses = h.responses := by
          simp only [History.record]
          split <;> rfl
        rw [hr]
        by_cases hij : i = j
        · subst hij
          simp at hj
        · simp only [hij, if_false] at hj
          exact hresp j r hj
      · intro _ j o hjo
        simp only [History.record, hresp i res hi, List.head?_cons, Option.some.injEq,
          Prod.mk.injEq] at hjo
        rw [← hjo.2]
        rfl
    · cases hs

theorem agree_run (es : List Event) (p q : Page) (h : History) (ha : Agree p h)
    (hr : runEvents p es = some q) : Agree q (es.foldl History.record h) := by
  induction es generalizing p h with
  | nil =>
    simp only [runEvents, Option.some.injEq] at hr
    subst hr
    exact ha
  | cons e es ih =>
    simp only [runEvents] at hr
    cases hs : step p e with
    | none => simp [hs] at hr
    | some r =>
      simp only [hs, Option.some_bind] at hr
      exact ih r (h.record e) (agree_step p r h e ha hs) hr

theorem agree_start (p : Page) (d : StatusDisplay) (h : p.responseDiv = some d)
    (hidle : p.idle = true) : Agree p ⟨p.calls.length, none, [], []⟩ := by
  refine ⟨⟨d, h⟩, ?_, ?_⟩
  · intro i res hi
    have hf := not_idle_of_pending _ i _ hi rfl
    simp only [Page.idle] at hidle
    rw [hf] at hidle
    cases hidle
  · intro _ j o hjo
    simp at hjo

end SecureUpload

namespace SecureUpload

/-- C9 as stated fails: the second submission is started while the first is
in flight and settles first (body "second"), then the first settles (body
"first"); no request remains in flight, the submission started last is number
1, and the status element shows "first", the body of number 0. -/
theorem shows_most_recently_started_fails :
    ¬ ∀ (es : List Event) (q : Page) (j : Nat) (o : NetOutcome),
      runEvents freshPage es = some q → q.idle = true →
      mostRecentlyStarted freshPage.calls.length es = some j →
      outcomeOf freshPage.calls.length es j = some o →
      q.responseDiv = some (render o) := by
  intro hcl
  have hrun : (runEvents freshPage overlappingEvents).map (fun q => (q.responseDiv, q.idle))
      = some (some ⟨"first", "green"⟩, true) := by decide
  cases hq : runEvents freshPage overlappingEvents with
  | none => simp [hq] at hrun
  | some q =>
    simp only [hq, Option.map_some', Option.some.injEq, Prod.mk.injEq] at hrun
    have hd := hcl overlappingEvents q 1 (.completes ⟨200, true⟩ "second") hq hrun.2
      (by decide) (by decide)
    rw [hrun.1] at hd
    revert hd
    decide

/-- C9, amended: for every event sequence delivered to an idle page that has
the status element, once no request remains in flight the status element
shows the text and color determined by the outcome of the submission that
settled last; so it shows the outcome of the submission started last whenever
that one is also the last to settle. -/
theorem shows_last_settled (p q : Page) (d : StatusDisplay) (es : List Event)
    (h : p.responseDiv = some d) (hidle : p.idle = true)
    (hrun : runEvents p es = some q) (hq : q.idle = true) :
    (∀ j o, lastSettled p.calls.length es = some (j, o) → q.responseDiv = some (render o)) ∧
    (∀ j o, mostRecentlyStarted p.calls.length es = some j →
      lastSettled p.calls.length es = some (j, o) →
      outcomeOf p.calls.length es j = some o ∧ q.responseDiv = some (render o)) := by
  have ha := agree_run es p q _ (agree_start p d h hidle) hrun
  have hmain : ∀ j o, lastSettled p.calls.length es = some (j, o) →
      q.responseDiv = some (render o) := fun j o hjo => ha.2.2 hq j o hjo
  refine ⟨hmain, ?_⟩
  intro j o _ hjo
  refine ⟨?_, hmain j o hjo⟩
  simp only [lastSettled] at hjo
  simp only [outcomeOf]
  cases hl : (history p.calls.length es).settled with
  | nil => simp [hl] at hjo
  | cons x xs =>
    simp only [hl, List.head?_cons, Option.some.injEq] at hjo
    subst hjo
    simp [List.lookup]

/-- Witness of C9, amended: in the overlapping run the submission that settled
last is number 0, with body "first", and that is what the page shows; in the
sequential run the submission started last, number 1, settles last and the
page shows its body. -/
theorem shows_last_settled_witness :
    (lastSettled freshPage.calls.length overlappingEvents
        = some (0, .completes ⟨200, true⟩ "first") ∧
      ∃ q, runEvents freshPage overlappingEvents = some q ∧
        q.responseDiv = some ⟨"first", "green"⟩) ∧
    (mostRecentlyStarted freshPage.calls.length sequentialEvents = some 1 ∧
      ∃ q, runEvents freshPage sequentialEvents = some q ∧
        q.responseDiv = some ⟨"OK", "green"⟩) := by
  refine ⟨⟨by decide, ?_⟩, ⟨by decide, ?_⟩⟩
  · cases hq : runEvents freshPage overlappingEvents with
    | none => exact absurd hq (by decide)
    | some q =>
      have hi : q.idle = true := by
        have : (runEvents freshPage overlappingEvents).map Page.idle = some true := by decide
        simpa [hq] using this
      exact ⟨q, rfl, (shows_last_settled freshPage q ⟨"", ""⟩ overlappingEvents rfl rfl hq hi).1
        0 (.completes ⟨200, true⟩ "first") (by decide)⟩
  · cases hq : runEvents freshPage sequentialEvents with
    | none => exact absurd hq (by decide)
    | some q =>
      have hi : q.idle = true := by
        have : (runEvents freshPage sequentialEvents).map Page.idle = some true := by decide
        simpa [hq] using this
      exact ⟨q, rfl,
        ((shows_last_settled freshPage q ⟨"", ""⟩ sequentialEvents rfl rfl hq hi).2
          1 (.completes ⟨200, true⟩ "OK") (by decide) (by decide)).2⟩

end SecureUpload
